import Mathlib

namespace GTrends

/-!
Verification development for the Google Trends "Trending Now" scraper.

The Python sources (utils.py, scraper.py, exporter.py, translator.py,
models.py) are shallowly embedded below: pure text-processing helpers
become Lean functions on `String` / `List Char`, stateful code becomes
explicit state passing, fallible code returns `Option` / `Except`, and
network / LLM calls are abstracted as oracle parameters.  Python string
case operations are modelled on the ASCII range, which covers every
input the embedded properties quantify over.
-/

/-- ASCII model of Python `str.lower` on a single character. -/
def pyLowerChar (c : Char) : Char :=
  if 'A' ≤ c ∧ c ≤ 'Z' then Char.ofNat (c.toNat + 32) else c

/-- ASCII model of Python `str.upper` on a single character. -/
def pyUpperChar (c : Char) : Char :=
  if 'a' ≤ c ∧ c ≤ 'z' then Char.ofNat (c.toNat - 32) else c

/-- ASCII whitespace, as stripped by Python `str.strip` and matched by `\s`. -/
def isPyWhitespace (c : Char) : Bool :=
  c = ' ' ∨ c = '\t' ∨ c = '\n' ∨ c = '\r' ∨ c = '\x0b' ∨ c = '\x0c'

/-- The regex class `\d` (and Python `str.isdigit` on ASCII input). -/
def isDigitChar (c : Char) : Bool :=
  decide (c ∈ ['0', '1', '2', '3', '4', '5', '6', '7', '8', '9'])

/-- Python `str.strip()`: remove leading and trailing whitespace. -/
def pyStrip (l : List Char) : List Char :=
  ((l.dropWhile isPyWhitespace).reverse.dropWhile isPyWhitespace).reverse

/-- Python `str.lower` over a character list. -/
def pyLower (l : List Char) : List Char := l.map pyLowerChar

/-- Python `str.upper` over a character list. -/
def pyUpper (l : List Char) : List Char := l.map pyUpperChar

/-- Python substring containment `pat in s` on character lists. -/
def containsSub (pat : List Char) : List Char → Bool
  | [] => pat.isEmpty
  | c :: cs => pat.isPrefixOf (c :: cs) || containsSub pat cs

/-- Python substring containment `pat in s` on strings. -/
def containsStr (pat s : String) : Bool := containsSub pat.toList s.toList

/-- The `.replace("+", "_PLUS")` step of `parse_search_volume` (utils.py). -/
def replacePlus : List Char → List Char
  | [] => []
  | c :: cs =>
    if c = '+' then '_' :: 'P' :: 'L' :: 'U' :: 'S' :: replacePlus cs
    else c :: replacePlus cs

/-- Membership in the regex class `[A-Z0-9_]` used by `parse_search_volume`. -/
def isBucketChar (c : Char) : Bool :=
  ('A' ≤ c ∧ c ≤ 'Z') ∨ ('0' ≤ c ∧ c ≤ '9') ∨ c = '_'

/-- The `re.sub(r"[^A-Z0-9_]", "_", ...)` step of `parse_search_volume`. -/
def sanitizeChars (l : List Char) : List Char :=
  l.map (fun c => if isBucketChar c then c else '_')

/-- The `re.sub(r"_+", "_", ...)` step of `parse_search_volume`: collapse runs
of underscores; the flag records whether the previous kept character was an
underscore of the current run. -/
def collapseUnderscores : List Char → Bool → List Char
  | [], _ => []
  | c :: cs, prevU =>
    if c = '_' then
      if prevU then collapseUnderscores cs true
      else '_' :: collapseUnderscores cs true
    else c :: collapseUnderscores cs false

/-- Python `.strip("_")`: remove leading and trailing underscores. -/
def stripUnderscores (l : List Char) : List Char :=
  ((l.dropWhile (· = '_')).reverse.dropWhile (· = '_')).reverse

/-- `parse_search_volume` from utils.py: strip, uppercase, replace `+` with
`_PLUS`, map characters outside `[A-Z0-9_]` to `_`, collapse repeated
underscores, strip leading/trailing underscores, lowercase. -/
def parse_search_volume (volume_text : String) : String :=
  let cleaned := pyUpper (pyStrip volume_text.toList)
  let bucket := replacePlus cleaned
  let bucket := sanitizeChars bucket
  let bucket := collapseUnderscores bucket false
  let bucket := stripUnderscores bucket
  String.mk (pyLower bucket)

/-! Facts about single digit characters, used to push digit strings through
the normalization pipeline. -/

/-! ## parse_relative_time (utils.py)

The function lowercases and strips the input, searches it (in order) against
the regex patterns `(\d+)\s*minutes?\s*ago`, `...hours?...`, `...days?...`,
`...weeks?...`, returning `now` minus the matched duration for the first
pattern that matches; otherwise it returns `now` when the input contains
`"just now"` or `"now"` as a substring, and `None` when it does not.  Time
is modelled at second granularity as the integer count of seconds since
`datetime.min`; `datetime.now()` becomes the parameter `now`.  The whole
body sits in `try/except Exception: return None`, so the `OverflowError`
raised by CPython when a `timedelta` exceeds 999999999 days, or when the
subtraction result precedes `datetime.min`, makes the function return
`None`; both bounds are embedded.  The regex search is a deterministic
scan: for
these patterns, the greedy no-backtracking scan is equivalent to Python
leftmost-match semantics, because the subterm following `(\d+)` cannot
consume a digit and the subterm following the optional `s` cannot consume
an `s`. -/

/-- Match a literal word at the head of the input, returning the rest. -/
def matchLit : List Char → List Char → Option (List Char)
  | [], l => some l
  | _, [] => none
  | p :: ps, c :: cs => if c = p then matchLit ps cs else none

/-- After the digit group: match `\s* unit s? \s* "ago"` (the rest of the
input is unconstrained, as `re.search` does not anchor the end). -/
def matchUnitSuffix (unit : List Char) (l : List Char) : Bool :=
  match matchLit unit (l.dropWhile isPyWhitespace) with
  | none => false
  | some l2 =>
    let l3 := match l2 with
      | 's' :: rest => rest
      | _ => l2
    (matchLit ['a', 'g', 'o'] (l3.dropWhile isPyWhitespace)).isSome

/-- `re.search(r"(\d+)\s*unit s?\s*ago", l)`: scan start positions left to
right; at a digit, the group takes the maximal digit run from there; on
failure the scan resumes at the next character.  Returns the digit group. -/
def searchUnit (unit : List Char) : List Char → Option (List Char)
  | [] => none
  | c :: cs =>
    if isDigitChar c then
      if matchUnitSuffix unit ((c :: cs).dropWhile isDigitChar) then
        some ((c :: cs).takeWhile isDigitChar)
      else searchUnit unit cs
    else searchUnit unit cs

/-- Python `int` on the digit group of a match. -/
def digitsToNat (l : List Char) : Nat :=
  l.foldl (fun a c => a * 10 + (c.toNat - 48)) 0

/-- The input normalization `relative_time.lower().strip()`. -/
def normalizeRelTime (relative_time : String) : List Char :=
  pyStrip (pyLower relative_time.toList)

/-- One second past the largest duration a `timedelta` can hold: for each
of the four units, a duration of at least `86400 × 10⁹` seconds normalizes
to more than 999999999 days and raises `OverflowError` at construction. -/
def timedeltaLimitSeconds : Nat := 86400000000000

/-- `now - timedelta(...)` under the surrounding `except`: `None` when the
`timedelta` construction overflows (at least `timedeltaLimitSeconds`
seconds) or when the result precedes `datetime.min` (time is counted in
seconds since `datetime.min`, so that means going below zero); `now` itself
minus the duration otherwise.  The subtraction cannot exceed
`datetime.max`, because the duration is non-negative. -/
def datetimeSubtract (now : Int) (seconds : Nat) : Option Int :=
  if timedeltaLimitSeconds ≤ seconds then none
  else if now - (seconds : Int) < 0 then none
  else some (now - (seconds : Int))

/-- `parse_relative_time` from utils.py, over seconds since `datetime.min`. -/
def parse_relative_time (now : Int) (relative_time : String) : Option Int :=
  let t := normalizeRelTime relative_time
  match searchUnit "minute".toList t with
  | some ds => datetimeSubtract now (60 * digitsToNat ds)
  | none =>
  match searchUnit "hour".toList t with
  | some ds => datetimeSubtract now (3600 * digitsToNat ds)
  | none =>
  match searchUnit "day".toList t with
  | some ds => datetimeSubtract now (86400 * digitsToNat ds)
  | none =>
  match searchUnit "week".toList t with
  | some ds => datetimeSubtract now (604800 * digitsToNat ds)
  | none =>
  if containsSub "just now".toList t || containsSub "now".toList t then some now
  else none

/-! Lemmas about the regex-search embedding. -/

/-! ## DOM extraction heuristics (scraper.py, `_extract_single_trend`)

The search-volume selection loop and the status detection, applied to the
non-empty stripped lines of a row and to the full row text. -/

/-- `any(char.isdigit() for char in line)`. -/
def lineHasDigit (line : String) : Bool := line.toList.any isDigitChar

/-- The search-volume selection loop of `_extract_single_trend`: the first
line that passes all three nested conditions is taken; otherwise the volume
text stays `"N/A"`. -/
def findVolume : List String → String
  | [] => "N/A"
  | line :: rest =>
    if containsStr "+" line && lineHasDigit line then
      if containsStr "K+" line || containsStr "M+" line || containsStr "1,000%" line
          || containsStr "400%" line || containsStr "500%" line then
        if !(containsStr "1,000%" line || containsStr "400%" line
            || containsStr "500%" line || containsStr "800%" line
            || containsStr "700%" line || containsStr "900%" line) then
          line
        else findVolume rest
      else findVolume rest
    else findVolume rest

/-- The effective per-line qualification predicate of the code (the spec's
description, corrected: every line containing any of the six percentage
markers is excluded, so only `K+`/`M+` lines can qualify). -/
def volumeLineOk (line : String) : Bool :=
  (containsStr "+" line && lineHasDigit line)
    && (containsStr "K+" line || containsStr "M+" line)
    && !(containsStr "1,000%" line || containsStr "400%" line
        || containsStr "500%" line || containsStr "800%" line
        || containsStr "700%" line || containsStr "900%" line)

/-- First qualifying line, else `"N/A"` — the claim's reading, with the
corrected predicate. -/
def findVolumeSpec (lines : List String) : String :=
  (lines.find? volumeLineOk).getD "N/A"

/-- `TrendStatus` from models.py. -/
inductive TrendStatus where
  | active
  | lasted
deriving DecidableEq, Repr

/-- The status detection of `_extract_single_trend`: default `Active`, the
`"Active"` substring is checked before the `"Lasted"` substring. -/
def extractStatus (row_text : String) : TrendStatus :=
  if containsStr "Active" row_text then TrendStatus.active
  else if containsStr "Lasted" row_text then TrendStatus.lasted
  else TrendStatus.active

/-! ## retry_with_backoff (utils.py)

The callable is modelled as an oracle `f : Nat → Except ε α` giving the
outcome of each invocation, numbered from 0 (the sleeps between attempts do
not affect results or counts and are elided).  The Python loop
`for attempt in range(max_retries + 1)` returns the first success, stores
each failure, and re-raises the stored exception after the loop, which for
`max_retries ≥ 0` is the outcome of the last invocation. -/

/-- The retry loop: `remaining` further attempts follow the current one. -/
def retryGo (f : Nat → Except ε α) (attempt : Nat) : Nat → Except ε α
  | 0 => f attempt
  | remaining + 1 =>
    match f attempt with
    | Except.ok v => Except.ok v
    | Except.error _ => retryGo f (attempt + 1) remaining

/-- `retry_with_backoff(func, max_retries)`: result of the retry loop. -/
def retry_with_backoff (f : Nat → Except ε α) (max_retries : Nat) : Except ε α :=
  retryGo f 0 max_retries

/-- How many times the retry loop invokes the callable. -/
def retryCountGo (f : Nat → Except ε α) (attempt : Nat) : Nat → Nat
  | 0 => 1
  | remaining + 1 =>
    match f attempt with
    | Except.ok _ => 1
    | Except.error _ => 1 + retryCountGo f (attempt + 1) remaining

/-- Total number of invocations made by `retry_with_backoff`. -/
def retryInvocations (f : Nat → Except ε α) (max_retries : Nat) : Nat :=
  retryCountGo f 0 max_retries

/-! ## Export-mode fallback (scraper.py, `_fallback_to_dom_scraping`)

`self.params` is modelled as an explicit record threaded through the body.
The body stands for everything inside the `try:` block (re-navigation,
filter re-application, the DOM extraction loop); it receives the params
with `export_mode` forced to `scrape` and yields the params as mutated so
far together with either the extracted trends or the exception that
escaped, and the `finally:` block restores the original `export_mode` on
both exit paths. -/

/-- `ExportMode` from models.py. -/
inductive ExportMode where
  | scrape
  | export_csv
  | export_rss
deriving DecidableEq, Repr

/-- The fetch-parameter fields relevant to the fallback. -/
structure ScraperParams where
  export_mode : ExportMode
  geo : String
  limit : Option Nat
deriving DecidableEq, Repr

/-- `_fallback_to_dom_scraping`: save `export_mode`, force it to `scrape`,
run the body, and restore the saved mode in the `finally:` block whether
the body returned trends or raised. -/
def fallbackToDomScraping {ε α : Type}
    (body : ScraperParams → ScraperParams × Except ε α)
    (params : ScraperParams) : ScraperParams × Except ε α :=
  let original_mode := params.export_mode
  let forced := { params with export_mode := ExportMode.scrape }
  let result := body forced
  ({ result.1 with export_mode := original_mode }, result.2)

/-! ## CSV import (exporter.py, `map_csv_to_trends`)

A CSV row is modelled by the optional cell values the mapper reads; the
CSV read itself and the per-row item construction may fail, modelled by an
`Except` input and a row-failure oracle standing for the `try/except`
around each row. -/

/-- The fields of `TrendItem` (models.py) needed by the embedded code. -/
structure TrendItem where
  title : String
  search_volume_text : String
  search_volume_bucket : String
  started_relative : String
  started_iso : Option String := none
  status : TrendStatus
  top_related : List String := []
  more_related_count : Nat := 0
  sparkline_svg_path : Option String := none
  page_index : Nat := 1
  geo : String
  time_window : String
  category : String
  active_only : Bool := false
  sort : String
  source : String := "scrape"
  title_translated : Option String := none
  related_translated : Option (List String) := none
deriving DecidableEq, Repr

/-- Python `str.lower` on a string. -/
def pyLowerStr (s : String) : String := String.mk (pyLower s.toList)

/-- Python `str.strip()` on a string. -/
def pyStripStr (s : String) : String := String.mk (pyStrip s.toList)

/-- The `.replace('+', '_plus')` step of `_normalize_search_volume`. -/
def csvReplacePlus : List Char → List Char
  | [] => []
  | c :: cs =>
    if c = '+' then '_' :: 'p' :: 'l' :: 'u' :: 's' :: csvReplacePlus cs
    else c :: csvReplacePlus cs

/-- `_normalize_search_volume` from exporter.py: empty or `"N/A"` input
yields `"unknown"`; otherwise lowercase, replace `+` with `_plus`, replace
spaces with underscores. -/
def csvNormalizeSearchVolume (volume_text : String) : String :=
  if volume_text = "" || volume_text = "N/A" then "unknown"
  else
    String.mk ((csvReplacePlus (pyLower volume_text.toList)).map
      (fun c => if c = ' ' then '_' else c))

/-- `_parse_status` from exporter.py: substring match on the lowercased,
stripped text, `"active"` checked first, default `Active`. -/
def csvParseStatus (status_text : String) : TrendStatus :=
  let status_lower := pyStrip (pyLower status_text.toList)
  if containsSub "active".toList status_lower then TrendStatus.active
  else if containsSub "lasted".toList status_lower then TrendStatus.lasted
  else TrendStatus.active

/-- The separator scan of `_parse_related_queries`: split on the first of
`;`, `,`, `|` present; no separator yields the empty list. -/
def csvSplitRelated (related_text : String) : List String :=
  if containsStr ";" related_text then (related_text.splitOn ";").map pyStripStr
  else if containsStr "," related_text then (related_text.splitOn ",").map pyStripStr
  else if containsStr "|" related_text then (related_text.splitOn "|").map pyStripStr
  else []

/-- `_parse_related_queries` from exporter.py. -/
def csvParseRelated (related_text : String) : List String :=
  if related_text = "" || pyLowerStr related_text = "nan"
      || pyLowerStr related_text = "none" || pyLowerStr related_text = "" then []
  else
    let queries := csvSplitRelated related_text
    let queries := if queries.isEmpty then [pyStripStr related_text] else queries
    queries.filter (fun q => !(q = "") && !(pyLowerStr q = "nan"))

/-- The cell values a CSV row offers to the mapper (absent when the column
is missing). -/
structure CsvRow where
  title : Option String := none
  query : Option String := none
  search_volume : Option String := none
  searches : Option String := none
  started : Option String := none
  status : Option String := none
  related : Option String := none
deriving DecidableEq, Repr

/-- The run-parameter dictionary as read by `map_csv_to_trends` via
`params.get(key, default)`. -/
structure CsvParams where
  geo : Option String := none
  time_window : Option String := none
  category : Option String := none
  active_only : Option Bool := none
  sort : Option String := none
deriving DecidableEq, Repr

/-- The per-row `TrendItem` construction of `map_csv_to_trends`. -/
def mapCsvRow (params : CsvParams) (row : CsvRow) : TrendItem :=
  let search_volume_text := row.search_volume.getD (row.searches.getD "N/A")
  { title := row.title.getD (row.query.getD "")
    search_volume_text := search_volume_text
    search_volume_bucket := csvNormalizeSearchVolume search_volume_text
    started_relative := row.started.getD "Unknown"
    started_iso := none
    status := csvParseStatus (row.status.getD "Active")
    top_related := csvParseRelated (row.related.getD "")
    more_related_count := 0
    sparkline_svg_path := none
    page_index := 1
    geo := params.geo.getD "Unknown"
    time_window := params.time_window.getD "past_24_hours"
    category := params.category.getD "all"
    active_only := params.active_only.getD false
    sort := params.sort.getD "relevance"
    source := "export_csv" }

/-- The row loop of `map_csv_to_trends`: a row whose mapping raises (per
the failure oracle) is skipped with a warning, the others are appended in
order. -/
def mapCsvRows (rowFails : CsvRow → Bool) (params : CsvParams) :
    List CsvRow → List TrendItem
  | [] => []
  | r :: rs =>
    if rowFails r then mapCsvRows rowFails params rs
    else mapCsvRow params r :: mapCsvRows rowFails params rs

/-- `map_csv_to_trends` from exporter.py: a failed CSV read (outer
`except`) yields the empty list; otherwise the row loop runs.  The
function is total: it never raises. -/
def map_csv_to_trends (csv : Except Unit (List CsvRow))
    (rowFails : CsvRow → Bool) (params : CsvParams) : List TrendItem :=
  match csv with
  | Except.error _ => []
  | Except.ok rows => mapCsvRows rowFails params rows

/-- A sample CSV row, used by the witness for C5. -/
def csvSampleRow : CsvRow :=
  { title := some "Test Topic", search_volume := some "2M+",
    started := some "3 hours ago", status := some "Active",
    related := some "query1;query2" }

/-! ## Translation batching (translator.py)

The chat-completion call of `_translate_trending_topics_batch` is
abstracted as an oracle from the text batch to the response content; the
prompt construction (categories, breakdown context, country blurbs) only
shapes the request, so it lives inside the oracle.  The response parsing
and the count alignment are embedded from the source. -/

/-- Python `not text or not text.strip()`: empty or whitespace-only. -/
def isBlank (text : String) : Bool := text = "" || pyStripStr text = ""

/-- Response parsing of `_translate_trending_topics_batch`: strip the
content, split on the `|||` delimiter, strip each piece, keep non-empty
pieces. -/
def parseBatchContent (content : String) : List String :=
  (((pyStripStr content).splitOn "|||").map pyStripStr).filter (fun t => !(t = ""))

/-- Count alignment of `_translate_trending_topics_batch`: pad with the
original source texts at the missing positions, then truncate, so that the
result has exactly one entry per input text. -/
def ensureCount (translations texts : List String) : List String :=
  if translations.length = texts.length then translations
  else (translations ++ texts.drop translations.length).take texts.length

/-- `_translate_trending_topics_batch` over the content oracle. -/
def translateTopicsBatch (oracle : List String → String)
    (texts : List String) : List String :=
  ensureCount (parseBatchContent (oracle texts)) texts

/-! ### Redistribution (`_translate_trends_with_context`) -/

/-- `all_related`: concatenation of the items' related queries in item
order; items with no related queries contribute nothing. -/
def allRelated : List TrendItem → List String
  | [] => []
  | t :: ts => t.top_related ++ allRelated ts

/-- Start offset of item `i`'s chunk inside the flattened related-query
batch: the sum of the related-query counts of the items before it. -/
def relatedOffset : List TrendItem → Nat → Nat
  | _, 0 => 0
  | [], _ + 1 => 0
  | t :: ts, i + 1 => t.top_related.length + relatedOffset ts i

/-- The title redistribution loop: `trend.title_translated =
translated_titles[i]`. -/
def applyTitles : List TrendItem → List String → List TrendItem
  | [], _ => []
  | _ :: _, [] => []
  | t :: ts, s :: ss => { t with title_translated := some s } :: applyTitles ts ss

/-- The related-query redistribution loop: each item with related queries
receives `translated_related[idx : idx + count]` and the cursor advances by
`count`; items without related queries are untouched. -/
def applyRelated (batch : List String) : List TrendItem → Nat → List TrendItem
  | [], _ => []
  | t :: ts, idx =>
    if t.top_related.isEmpty then t :: applyRelated batch ts idx
    else
      { t with
          related_translated := some ((batch.drop idx).take t.top_related.length) }
        :: applyRelated batch ts (idx + t.top_related.length)

/-- `_translate_trends_with_context` from translator.py: one batch call for
all titles, one for all related queries concatenated in item order (skipped
when there are none), then redistribution. -/
def translateTrendsWithContext (titleOracle relatedOracle : List String → String)
    (trends : List TrendItem) : List TrendItem :=
  let translated_titles :=
    translateTopicsBatch titleOracle (trends.map (fun t => t.title))
  let all_related := allRelated trends
  let translated_related :=
    if all_related.isEmpty then [] else translateTopicsBatch relatedOracle all_related
  let t1 := applyTitles trends translated_titles
  if translated_related.isEmpty then t1 else applyRelated translated_related t1 0

/-! ### translate_batch (FreeTranslator and GPTTranslator)

Both backends build the result list in one pass — blank inputs and cache
hits are placed directly, the rest get a `None` placeholder and are
collected with their positions — then fill the placeholders from the batch
result, or from the original texts when the batch call raised.  The Python
result list may retain `None` entries (when the free backend's batch
result is shorter than requested), so elements are modelled as
`Option String`.  The cache is abstracted as a lookup from the text (the
cache key is the text prefixed by the fixed language pair). -/

/-- The first pass of `translate_batch`: walk the texts with their
positions, emitting the placeholder list, the texts still to translate,
and their positions. -/
def buildBatchState (cache : String → Option String) :
    List String → Nat → List (Option String) × List String × List Nat
  | [], _ => ([], [], [])
  | text :: ts, i =>
    let rest := buildBatchState cache ts (i + 1)
    if isBlank text then (some text :: rest.1, rest.2.1, rest.2.2)
    else
      match cache text with
      | some c => (some c :: rest.1, rest.2.1, rest.2.2)
      | none => (none :: rest.1, text :: rest.2.1, i :: rest.2.2)

/-- The fill loop `for idx, translation in zip(indices, batch): ...`. -/
def fillTranslations (translations : List (Option String))
    (pairs : List (Nat × String)) : List (Option String) :=
  pairs.foldl (fun acc p => acc.set p.1 (some p.2)) translations

/-- The exception fallback `for idx in indices: translations[idx] =
texts[idx]`. -/
def fillFallback (texts : List String) (translations : List (Option String))
    (idxs : List Nat) : List (Option String) :=
  idxs.foldl (fun acc i => acc.set i (some (texts.getD i ""))) translations

/-- The shared shape of both `translate_batch` implementations, over the
outcome `res` of the uncached-batch translation call. -/
def runBatchFill (cache : String → Option String) (texts : List String)
    (res : Except Unit (List String)) : List (Option String) :=
  if texts.isEmpty then []
  else
    let st := buildBatchState cache texts 0
    if st.2.1.isEmpty then st.1
    else
      match res with
      | Except.ok batch => fillTranslations st.1 (st.2.2.zip batch)
      | Except.error _ => fillFallback texts st.1 st.2.2

/-- `FreeTranslator.translate_batch`: the deep-translator batch call is the
oracle (it may raise, and may return a list of any length — `zip`
truncates). -/
def free_translate_batch (oracle : List String → Except Unit (List String))
    (cache : String → Option String) (texts : List String) :
    List (Option String) :=
  runBatchFill cache texts (oracle (buildBatchState cache texts 0).2.1)

/-- `GPTTranslator.translate_batch`: the batch call goes through
`_translate_trending_topics_batch`, whose response parsing and count
alignment guarantee one entry per requested text; the HTTP call may
raise. -/
def gpt_translate_batch (oracle : List String → Except Unit String)
    (cache : String → Option String) (texts : List String) :
    List (Option String) :=
  runBatchFill cache texts
    ((oracle (buildBatchState cache texts 0).2.1).map
      (fun content =>
        ensureCount (parseBatchContent content)
          (buildBatchState cache texts 0).2.1))

/-- Two sample items for the C7 witness: one with two related queries, one
with none. -/
def demoTrendA : TrendItem :=
  { title := "A", search_volume_text := "2M+", search_volume_bucket := "2m_plus",
    started_relative := "1 hours ago", status := TrendStatus.active,
    top_related := ["q1", "q2"], geo := "United States",
    time_window := "past_24_hours", category := "all", sort := "relevance" }

/-- Companion item without related queries for the C7 witness. -/
def demoTrendB : TrendItem :=
  { title := "B", search_volume_text := "500K+", search_volume_bucket := "500k_plus",
    started_relative := "2 hours ago", status := TrendStatus.lasted,
    top_related := [], geo := "United States",
    time_window := "past_24_hours", category := "all", sort := "relevance" }

/-- A fixed two-translation response for the C7 witness oracles. -/
def demoOracle : List String → String := fun _ => "x|||y"

/-- Sample inputs for the C9 witness: a blank, a word, a whitespace-only
text. -/
def demoTexts : List String := ["", "hello", "  "]

/-- A free-backend batch oracle for the C9 witness (returns fewer entries
than requested, which the code tolerates). -/
def demoFreeOracle : List String → Except Unit (List String) :=
  fun _ => Except.ok ["H"]

/-- A chat-backend content oracle for the C9 witness. -/
def demoGptOracle : List String → Except Unit String := fun _ => Except.ok "H"

/-- An empty cache for the C9 witness. -/
def demoCache : String → Option String := fun _ => none

/-! ## Theorems

The embedding above is complete; everything below is proved about it. -/

example : parse_search_volume "2M+" = "2m_plus" := by decide

example : parse_search_volume "500K+" = "500k_plus" := by decide

example : parse_search_volume " 10K+ " = "10k_plus" := by decide

example : parse_search_volume "N/A" = "n_a" := by decide

theorem digitChar_facts (c : Char) (h : isDigitChar c = true) :
    pyLowerChar c = c ∧ pyUpperChar c = c ∧ isPyWhitespace c = false ∧
    isBucketChar c = true ∧ c ≠ '+' ∧ c ≠ '_' := by
  simp only [isDigitChar, decide_eq_true_eq, List.mem_cons, List.not_mem_nil, or_false] at h
  rcases h with rfl | rfl | rfl | rfl | rfl | rfl | rfl | rfl | rfl | rfl <;> decide

theorem dropWhile_eq_self_of_all {α : Type} {p : α → Bool} {l : List α}
    (h : ∀ c ∈ l, p c = false) : l.dropWhile p = l := by
  cases l with
  | nil => rfl
  | cons a as =>
    rw [List.dropWhile_cons_of_neg]
    simp [h a (by simp)]

theorem pyStrip_eq_self {l : List Char} (h : ∀ c ∈ l, isPyWhitespace c = false) :
    pyStrip l = l := by
  unfold pyStrip
  rw [dropWhile_eq_self_of_all h,
      dropWhile_eq_self_of_all (fun c hc => h c (List.mem_reverse.mp hc)),
      List.reverse_reverse]

theorem map_eq_self_of_all {α : Type} {f : α → α} {l : List α}
    (h : ∀ c ∈ l, f c = c) : l.map f = l := by
  induction l with
  | nil => rfl
  | cons a as ih =>
    simp only [List.map_cons, h a (by simp)]
    rw [ih (fun c hc => h c (by simp [hc]))]

theorem replacePlus_append (xs ys : List Char) :
    replacePlus (xs ++ ys) = replacePlus xs ++ replacePlus ys := by
  induction xs with
  | nil => rfl
  | cons a as ih =>
    by_cases ha : a = '+' <;> simp [replacePlus, ha, ih]

theorem replacePlus_eq_self_of_all {l : List Char} (h : ∀ c ∈ l, c ≠ '+') :
    replacePlus l = l := by
  induction l with
  | nil => rfl
  | cons a as ih =>
    simp [replacePlus, h a (by simp)]
    exact ih (fun c hc => h c (by simp [hc]))

theorem collapseUnderscores_digits_append (ds : List Char)
    (h : ∀ c ∈ ds, isDigitChar c = true) (t : List Char) :
    collapseUnderscores (ds ++ t) false = ds ++ collapseUnderscores t false := by
  induction ds with
  | nil => rfl
  | cons d ds2 ih =>
    have hd := digitChar_facts d (h d (by simp))
    simp only [List.cons_append, collapseUnderscores, if_neg hd.2.2.2.2.2]
    exact congrArg (d :: ·) (ih (fun c hc => h c (by simp [hc])))

theorem stripUnderscores_digits_suffix (ds : List Char)
    (h : ∀ c ∈ ds, isDigitChar c = true) (k : Char) (hk : k = 'K' ∨ k = 'M') :
    stripUnderscores (ds ++ [k, '_', 'P', 'L', 'U', 'S']) = ds ++ [k, '_', 'P', 'L', 'U', 'S'] := by
  unfold stripUnderscores
  have h1 : (ds ++ [k, '_', 'P', 'L', 'U', 'S']).dropWhile (· = '_') =
      ds ++ [k, '_', 'P', 'L', 'U', 'S'] := by
    cases ds with
    | nil =>
      simp only [List.nil_append]
      rw [List.dropWhile_cons_of_neg]
      rcases hk with rfl | rfl <;> decide
    | cons d ds2 =>
      rw [List.cons_append, List.dropWhile_cons_of_neg]
      have hd := digitChar_facts d (h d (by simp))
      simp [hd.2.2.2.2.2]
  rw [h1, List.reverse_append]
  have h2 : ([k, '_', 'P', 'L', 'U', 'S'] : List Char).reverse = ['S', 'U', 'L', 'P', '_', k] := rfl
  rw [h2, List.cons_append, List.dropWhile_cons_of_neg (by decide)]
  rw [← List.cons_append, ← h2, ← List.reverse_append, List.reverse_reverse]

theorem pyLower_digits_suffix (ds : List Char)
    (h : ∀ c ∈ ds, isDigitChar c = true) (k : Char) :
    pyLower (ds ++ [k, '_', 'P', 'L', 'U', 'S']) =
      ds ++ [pyLowerChar k, '_', 'p', 'l', 'u', 's'] := by
  unfold pyLower
  rw [List.map_append, map_eq_self_of_all (fun c hc => (digitChar_facts c (h c hc)).1)]
  rfl

/-- The whole `parse_search_volume` pipeline on a digit string followed by a
`K+` / `M+` magnitude suffix. -/
theorem parse_search_volume_digits (ds : List Char)
    (h : ∀ c ∈ ds, isDigitChar c = true) (k : Char) (hk : k = 'K' ∨ k = 'M') :
    parse_search_volume (String.mk (ds ++ [k, '+'])) =
      String.mk (ds ++ [pyLowerChar k, '_', 'p', 'l', 'u', 's']) := by
  have hall : ∀ c ∈ ds ++ [k, '+'], isPyWhitespace c = false := by
    intro c hc
    rcases List.mem_append.mp hc with hc | hc
    · exact (digitChar_facts c (h c hc)).2.2.1
    · rcases hk with rfl | rfl <;> simp at hc <;> rcases hc with rfl | rfl <;> decide
  have hup : pyUpper (ds ++ [k, '+']) = ds ++ [k, '+'] := by
    unfold pyUpper
    rw [List.map_append, map_eq_self_of_all (fun c hc => (digitChar_facts c (h c hc)).2.1)]
    rcases hk with rfl | rfl <;> rfl
  have hrp : replacePlus (ds ++ [k, '+']) = ds ++ [k, '_', 'P', 'L', 'U', 'S'] := by
    rw [replacePlus_append, replacePlus_eq_self_of_all
      (fun c hc => (digitChar_facts c (h c hc)).2.2.2.2.1)]
    rcases hk with rfl | rfl <;> rfl
  have hsan : sanitizeChars (ds ++ [k, '_', 'P', 'L', 'U', 'S']) =
      ds ++ [k, '_', 'P', 'L', 'U', 'S'] := by
    unfold sanitizeChars
    rw [List.map_append, map_eq_self_of_all
      (fun c hc => by simp [(digitChar_facts c (h c hc)).2.2.2.1])]
    rcases hk with rfl | rfl <;> rfl
  show String.mk (pyLower (stripUnderscores (collapseUnderscores (sanitizeChars
    (replacePlus (pyUpper (pyStrip (String.mk (ds ++ [k, '+'])).toList)))) false))) = _
  have htl : (String.mk (ds ++ [k, '+'])).toList = ds ++ [k, '+'] := rfl
  rw [htl, pyStrip_eq_self hall, hup, hrp, hsan, collapseUnderscores_digits_append ds h]
  rcases hk with rfl | rfl
  · rw [show collapseUnderscores ['K', '_', 'P', 'L', 'U', 'S'] false =
          ['K', '_', 'P', 'L', 'U', 'S'] from rfl,
        stripUnderscores_digits_suffix ds h 'K' (Or.inl rfl),
        pyLower_digits_suffix ds h 'K']
  · rw [show collapseUnderscores ['M', '_', 'P', 'L', 'U', 'S'] false =
          ['M', '_', 'P', 'L', 'U', 'S'] from rfl,
        stripUnderscores_digits_suffix ds h 'M' (Or.inr rfl),
        pyLower_digits_suffix ds h 'M']

/-- C4: for every digit string `n` and suffix letter `K` or `M`,
`parse_search_volume` applied to `"{n}{K|M}+"` returns `"{n}{k|m}_plus"` with
the suffix lower-cased. -/
theorem parse_search_volume_KM_plus (ds : List Char)
    (h : ∀ c ∈ ds, isDigitChar c = true) :
    parse_search_volume (String.mk (ds ++ ['K', '+'])) =
      String.mk (ds ++ ['k', '_', 'p', 'l', 'u', 's']) ∧
    parse_search_volume (String.mk (ds ++ ['M', '+'])) =
      String.mk (ds ++ ['m', '_', 'p', 'l', 'u', 's']) :=
  ⟨parse_search_volume_digits ds h 'K' (Or.inl rfl),
   parse_search_volume_digits ds h 'M' (Or.inr rfl)⟩

/-- Witness for C4: instantiated at `"2M+"` and `"500K+"`. -/
theorem parse_search_volume_KM_plus_witness :
    parse_search_volume (String.mk (['2'] ++ ['M', '+'])) =
      String.mk (['2'] ++ ['m', '_', 'p', 'l', 'u', 's']) ∧
    parse_search_volume (String.mk (['5', '0', '0'] ++ ['K', '+'])) =
      String.mk (['5', '0', '0'] ++ ['k', '_', 'p', 'l', 'u', 's']) :=
  ⟨(parse_search_volume_KM_plus ['2'] (by decide)).2,
   (parse_search_volume_KM_plus ['5', '0', '0'] (by decide)).1⟩

example : parse_relative_time 100000 "9 hours ago" = some (100000 - 9 * 3600) := by decide

example : parse_relative_time 1000000 "2 days ago" = some (1000000 - 2 * 86400) := by decide

example : parse_relative_time 100000 "2 days ago" = none := by decide

example : parse_relative_time 63800000000 "800000 days ago" = none := by decide

example : parse_relative_time 63800000000 "2000000000000 minutes ago" = none := by decide

example : parse_relative_time 100000 "just now" = some 100000 := by decide

example : parse_relative_time 100000 "now" = some 100000 := by decide

example : parse_relative_time 100000 "gibberish" = none := by decide

example : parse_relative_time 100000 "snow" = some 100000 := by decide

example : parse_relative_time 100000 "  3 Minutes ago " = some (100000 - 180) := by decide

theorem searchUnit_none_of_no_digit (unit : List Char) {l : List Char}
    (h : ∀ c ∈ l, isDigitChar c = false) : searchUnit unit l = none := by
  induction l with
  | nil => rfl
  | cons c cs ih =>
    simp only [searchUnit, h c (by simp)]
    exact ih (fun x hx => h x (by simp [hx]))

theorem takeWhile_eq_nil_of_all {α : Type} {p : α → Bool} {l : List α}
    (h : ∀ c ∈ l, p c = false) : l.takeWhile p = [] := by
  cases l with
  | nil => rfl
  | cons a as => rw [List.takeWhile_cons_of_neg]; simp [h a (by simp)]

/-- The regex scan on `digits ++ rest` where `rest` contains no digit:
it succeeds exactly when the suffix pattern matches `rest`, and then the
digit group is the whole digit block. -/
theorem searchUnit_digits_append (unit ds rest : List Char)
    (hds : ∀ c ∈ ds, isDigitChar c = true)
    (hrest : ∀ c ∈ rest, isDigitChar c = false) :
    searchUnit unit (ds ++ rest) =
      if matchUnitSuffix unit rest then (if ds.isEmpty then none else some ds)
      else none := by
  induction ds with
  | nil =>
    simp only [List.nil_append, List.isEmpty_nil]
    rw [searchUnit_none_of_no_digit unit hrest]
    cases matchUnitSuffix unit rest <;> simp
  | cons d ds2 ih =>
    have hd : isDigitChar d = true := hds d (by simp)
    have hdrop : (d :: (ds2 ++ rest)).dropWhile isDigitChar = rest := by
      rw [List.dropWhile_cons_of_pos (by simp [hd]),
          List.dropWhile_append_of_pos (fun a ha => by simp [hds a (by simp [ha])]),
          dropWhile_eq_self_of_all hrest]
    have htake : (d :: (ds2 ++ rest)).takeWhile isDigitChar = d :: ds2 := by
      rw [List.takeWhile_cons_of_pos (by simp [hd]),
          List.takeWhile_append_of_pos (fun a ha => by simp [hds a (by simp [ha])]),
          takeWhile_eq_nil_of_all hrest, List.append_nil]
    have hstep : searchUnit unit (d :: (ds2 ++ rest)) =
        if matchUnitSuffix unit rest then some (d :: ds2)
        else searchUnit unit (ds2 ++ rest) := by
      simp [searchUnit, hd, hdrop, htake]
    rw [List.cons_append, hstep]
    cases hm : matchUnitSuffix unit rest with
    | true => simp
    | false =>
      simp only [Bool.false_eq_true, if_false]
      rw [ih (fun c hc => hds c (by simp [hc]))]
      simp [hm]

theorem dropWhile_eq_self_of_head {α : Type} (p : α → Bool) (l : List α)
    (h : ∀ x, l.head? = some x → p x = false) : l.dropWhile p = l := by
  cases l with
  | nil => rfl
  | cons a as => rw [List.dropWhile_cons_of_neg]; simp [h a rfl]

theorem pyStrip_eq_self_of_ends (l : List Char)
    (h1 : ∀ x, l.head? = some x → isPyWhitespace x = false)
    (h2 : ∀ x, l.getLast? = some x → isPyWhitespace x = false) :
    pyStrip l = l := by
  unfold pyStrip
  rw [dropWhile_eq_self_of_head _ _ h1,
      dropWhile_eq_self_of_head _ _ (fun x hx => h2 x (by rwa [List.head?_reverse] at hx)),
      List.reverse_reverse]

/-- Normalization is the identity on inputs of the shape
`digits ++ " unit ago"` (already lowercase, no surrounding whitespace). -/
theorem normalizeRelTime_digits_append (ds sfx : List Char)
    (hne : ds ≠ []) (hds : ∀ c ∈ ds, isDigitChar c = true)
    (hlow : ∀ c ∈ sfx, pyLowerChar c = c)
    (hlast : sfx.getLast? = some 'o') :
    normalizeRelTime (String.mk (ds ++ sfx)) = ds ++ sfx := by
  unfold normalizeRelTime
  have htl : (String.mk (ds ++ sfx)).toList = ds ++ sfx := rfl
  rw [htl]
  have hlower : pyLower (ds ++ sfx) = ds ++ sfx := by
    unfold pyLower
    rw [List.map_append, map_eq_self_of_all (fun c hc => (digitChar_facts c (hds c hc)).1),
        map_eq_self_of_all hlow]
  rw [hlower]
  apply pyStrip_eq_self_of_ends
  · intro x hx
    cases ds with
    | nil => exact absurd rfl hne
    | cons d ds2 =>
      rw [List.cons_append, List.head?_cons, Option.some_inj] at hx
      exact hx ▸ (digitChar_facts d (hds d (by simp))).2.2.1
  · intro x hx
    have hsne : sfx ≠ [] := by
      intro hs; rw [hs] at hlast; exact Option.noConfusion hlast
    rw [List.getLast?_append_of_ne_nil _ hsne, hlast, Option.some_inj] at hx
    exact hx ▸ rfl

theorem containsSub_eq_true_iff (pat l : List Char) :
    containsSub pat l = true ↔ pat <:+: l := by
  induction l with
  | nil =>
    simp only [containsSub, List.isEmpty_iff, List.infix_nil]
  | cons c cs ih =>
    simp only [containsSub, Bool.or_eq_true, List.infix_cons_iff, ih,
      List.isPrefixOf_iff_prefix]

theorem containsSub_justnow_of_now {t : List Char}
    (h : containsSub "now".toList t = false) :
    containsSub "just now".toList t = false := by
  by_contra hc
  rw [Bool.not_eq_false, containsSub_eq_true_iff] at hc
  have hn : "now".toList <:+: t :=
    List.IsInfix.trans ⟨['j', 'u', 's', 't', ' '], [], by decide⟩ hc
  rw [← containsSub_eq_true_iff, h] at hn
  exact Bool.noConfusion hn

theorem searchUnit_hit (unit ds sfx : List Char) (hne : ds ≠ [])
    (hds : ∀ c ∈ ds, isDigitChar c = true)
    (hrest : ∀ c ∈ sfx, isDigitChar c = false)
    (hm : matchUnitSuffix unit sfx = true) :
    searchUnit unit (ds ++ sfx) = some ds := by
  rw [searchUnit_digits_append unit ds sfx hds hrest, hm]
  simp [List.isEmpty_iff, hne]

theorem searchUnit_miss (unit ds sfx : List Char)
    (hds : ∀ c ∈ ds, isDigitChar c = true)
    (hrest : ∀ c ∈ sfx, isDigitChar c = false)
    (hm : matchUnitSuffix unit sfx = false) :
    searchUnit unit (ds ++ sfx) = none := by
  rw [searchUnit_digits_append unit ds sfx hds hrest, hm]
  simp

/-- C1 (amended): `parse_relative_time` resolves `"{n} minutes/hours/days/weeks
ago"` to the result of the guarded datetime subtraction: `now` minus the
corresponding duration when the duration stays within `timedelta`'s
999999999-day bound and the result does not precede `datetime.min`, and
absent when either bound overflows (the `OverflowError` is caught by the
surrounding `except`); when no duration pattern matches, any input whose
lowercased, stripped form contains `"now"` as a substring — not only
`"just now"` and the bare word `"now"`, but also e.g. `"snow"` — resolves
to the current instant, and input without such a substring yields absent;
the function is total, so it never raises. -/
theorem parse_relative_time_amended (now : Int) :
    (∀ ds : List Char, ds ≠ [] → (∀ c ∈ ds, isDigitChar c = true) →
      parse_relative_time now (String.mk (ds ++ " minutes ago".toList)) =
        datetimeSubtract now (60 * digitsToNat ds) ∧
      parse_relative_time now (String.mk (ds ++ " hours ago".toList)) =
        datetimeSubtract now (3600 * digitsToNat ds) ∧
      parse_relative_time now (String.mk (ds ++ " days ago".toList)) =
        datetimeSubtract now (86400 * digitsToNat ds) ∧
      parse_relative_time now (String.mk (ds ++ " weeks ago".toList)) =
        datetimeSubtract now (604800 * digitsToNat ds)) ∧
    (∀ seconds : Nat,
      (seconds < timedeltaLimitSeconds → 0 ≤ now - (seconds : Int) →
        datetimeSubtract now seconds = some (now - (seconds : Int))) ∧
      (timedeltaLimitSeconds ≤ seconds ∨ now - (seconds : Int) < 0 →
        datetimeSubtract now seconds = none)) ∧
    (∀ s : String,
      searchUnit "minute".toList (normalizeRelTime s) = none →
      searchUnit "hour".toList (normalizeRelTime s) = none →
      searchUnit "day".toList (normalizeRelTime s) = none →
      searchUnit "week".toList (normalizeRelTime s) = none →
      (containsSub "now".toList (normalizeRelTime s) = true →
        parse_relative_time now s = some now) ∧
      (containsSub "now".toList (normalizeRelTime s) = false →
        parse_relative_time now s = none)) := by
  refine ⟨?_, ?_, ?_⟩
  · intro ds hne hds
    refine ⟨?_, ?_, ?_, ?_⟩
    · simp only [parse_relative_time]
      rw [normalizeRelTime_digits_append ds " minutes ago".toList hne hds
            (by decide) (by decide),
          searchUnit_hit "minute".toList ds " minutes ago".toList hne hds
            (by decide) (by decide)]
    · simp only [parse_relative_time]
      rw [normalizeRelTime_digits_append ds " hours ago".toList hne hds
            (by decide) (by decide),
          searchUnit_miss "minute".toList ds " hours ago".toList hds
            (by decide) (by decide),
          searchUnit_hit "hour".toList ds " hours ago".toList hne hds
            (by decide) (by decide)]
    · simp only [parse_relative_time]
      rw [normalizeRelTime_digits_append ds " days ago".toList hne hds
            (by decide) (by decide),
          searchUnit_miss "minute".toList ds " days ago".toList hds
            (by decide) (by decide),
          searchUnit_miss "hour".toList ds " days ago".toList hds
            (by decide) (by decide),
          searchUnit_hit "day".toList ds " days ago".toList hne hds
            (by decide) (by decide)]
    · simp only [parse_relative_time]
      rw [normalizeRelTime_digits_append ds " weeks ago".toList hne hds
            (by decide) (by decide),
          searchUnit_miss "minute".toList ds " weeks ago".toList hds
            (by decide) (by decide),
          searchUnit_miss "hour".toList ds " weeks ago".toList hds
            (by decide) (by decide),
          searchUnit_miss "day".toList ds " weeks ago".toList hds
            (by decide) (by decide),
          searchUnit_hit "week".toList ds " weeks ago".toList hne hds
            (by decide) (by decide)]
  · intro seconds
    constructor
    · intro hlt hge
      unfold datetimeSubtract
      rw [if_neg (by omega), if_neg (by omega)]
    · intro h
      rcases h with h | h <;> simp [datetimeSubtract, h]
  · intro s h1 h2 h3 h4
    constructor
    · intro hc
      simp only [parse_relative_time]
      rw [h1, h2, h3, h4, hc]
      simp
    · intro hc
      simp only [parse_relative_time]
      rw [h1, h2, h3, h4, hc, containsSub_justnow_of_now hc]
      simp

/-- Witness for C1 (amended): instantiated at `"2 minutes ago"` (in
bounds), `"800000 days ago"` at a realistic `now` (result precedes
`datetime.min`, so absent), `"snow"`, and `"gibberish"`. -/
theorem parse_relative_time_amended_witness :
    parse_relative_time 1000 (String.mk (['2'] ++ " minutes ago".toList)) =
      datetimeSubtract 1000 (60 * digitsToNat ['2']) ∧
    datetimeSubtract 1000 (60 * digitsToNat ['2']) =
      some (1000 - ((60 * digitsToNat ['2'] : Nat) : Int)) ∧
    parse_relative_time 63800000000
        (String.mk (['8', '0', '0', '0', '0', '0'] ++ " days ago".toList)) =
      datetimeSubtract 63800000000 (86400 * digitsToNat ['8', '0', '0', '0', '0', '0']) ∧
    datetimeSubtract 63800000000 (86400 * digitsToNat ['8', '0', '0', '0', '0', '0']) =
      none ∧
    parse_relative_time 1000 "snow" = some 1000 ∧
    parse_relative_time 1000 "gibberish" = none :=
  ⟨((parse_relative_time_amended 1000).1 ['2'] (by decide) (by decide)).1,
   ((parse_relative_time_amended 1000).2.1 (60 * digitsToNat ['2'])).1
      (by decide) (by decide),
   ((parse_relative_time_amended 63800000000).1 ['8', '0', '0', '0', '0', '0']
      (by decide) (by decide)).2.2.1,
   ((parse_relative_time_amended 63800000000).2.1
      (86400 * digitsToNat ['8', '0', '0', '0', '0', '0'])).2 (Or.inr (by decide)),
   ((parse_relative_time_amended 1000).2.2 "snow" (by decide) (by decide)
      (by decide) (by decide)).1 (by decide),
   ((parse_relative_time_amended 1000).2.2 "gibberish" (by decide) (by decide)
      (by decide) (by decide)).2 (by decide)⟩

/-- Counterexample for C1 as stated: `"snow"` is neither a duration phrase,
nor `"just now"`, nor the bare word `"now"`, yet `parse_relative_time`
resolves it to the current instant instead of returning absent, because the
code tests `"now" in relative_time` as a substring. -/
theorem parse_relative_time_claim_counterexample :
    parse_relative_time 0 "snow" = some 0 ∧
    ("snow" : String) ≠ "now" ∧ ("snow" : String) ≠ "just now" ∧
    searchUnit "minute".toList (normalizeRelTime "snow") = none ∧
    searchUnit "hour".toList (normalizeRelTime "snow") = none ∧
    searchUnit "day".toList (normalizeRelTime "snow") = none ∧
    searchUnit "week".toList (normalizeRelTime "snow") = none := by
  decide

/-- C10: every timestamp `parse_relative_time` returns is `now` minus a
non-negative duration, hence never later than the parse-time `now`. -/
theorem parse_relative_time_le_now (now t : Int) (s : String)
    (h : parse_relative_time now s = some t) : t ≤ now := by
  simp only [parse_relative_time, datetimeSubtract] at h
  repeat' split at h
  all_goals first
    | exact Option.noConfusion h
    | (injection h with h; omega)

/-- Witness for C10: instantiated at `"2 hours ago"`. -/
theorem parse_relative_time_le_now_witness :
    parse_relative_time 10000 "2 hours ago" = some 2800 ∧ (2800 : Int) ≤ 10000 :=
  ⟨by decide, parse_relative_time_le_now 10000 2800 "2 hours ago" (by decide)⟩

theorem volume_cond_taut (a d k m x y z u v w : Bool) :
    ((a && d) && ((k || m || x || y || z) && !(x || y || z || u || v || w))) =
      ((a && d) && (k || m) && !(x || y || z || u || v || w)) := by
  revert a d k m x y z u v w
  decide

/-- C2 (amended): the extracted search-volume text is the first line that
contains a `+` and a digit, contains `K+` or `M+`, and contains none of the
six percentage markers `1,000%`, `400%`, `500%`, `800%`, `700%`, `900%`;
if no line qualifies it is `"N/A"`.  (Lines are excluded as soon as they
contain a marker as a substring, not only when they equal one, and the
exclusion list includes all six markers.) -/
theorem findVolume_eq_spec (lines : List String) :
    findVolume lines = findVolumeSpec lines := by
  induction lines with
  | nil => rfl
  | cons line rest ih =>
    have hcond : volumeLineOk line =
        ((containsStr "+" line && lineHasDigit line)
          && ((containsStr "K+" line || containsStr "M+" line
              || containsStr "1,000%" line || containsStr "400%" line
              || containsStr "500%" line)
            && !(containsStr "1,000%" line || containsStr "400%" line
              || containsStr "500%" line || containsStr "800%" line
              || containsStr "700%" line || containsStr "900%" line))) := by
      rw [volumeLineOk, volume_cond_taut, Bool.and_assoc]
    cases h1 : (containsStr "+" line && lineHasDigit line) with
    | false =>
      have hok : volumeLineOk line = false := by rw [hcond, h1]; rfl
      simp [findVolume, findVolumeSpec, List.find?, h1, hok, ih]
    | true =>
      cases h2 : (containsStr "K+" line || containsStr "M+" line
          || containsStr "1,000%" line || containsStr "400%" line
          || containsStr "500%" line) with
      | false =>
        have hok : volumeLineOk line = false := by rw [hcond, h1, h2]; rfl
        simp [findVolume, findVolumeSpec, List.find?, h1, h2, hok, ih]
      | true =>
        cases h3 : !(containsStr "1,000%" line || containsStr "400%" line
            || containsStr "500%" line || containsStr "800%" line
            || containsStr "700%" line || containsStr "900%" line) with
        | false =>
          have hok : volumeLineOk line = false := by rw [hcond, h1, h2, h3]; rfl
          simp [findVolume, findVolumeSpec, List.find?, h1, h2, h3, hok, ih]
        | true =>
          have hok : volumeLineOk line = true := by rw [hcond, h1, h2, h3]; rfl
          simp [findVolume, findVolumeSpec, List.find?, h1, h2, h3, hok]

/-- Counterexample for C2 as stated: the line `"+400%"` contains a `+`, a
digit and the percentage marker `400%`, and is not one of `800%`, `700%`,
`900%`, so the claim says it is selected — but the code's exclusion check
also rejects lines containing `1,000%`, `400%` or `500%`, so the volume
text stays `"N/A"`. -/
theorem findVolume_claim_counterexample :
    findVolume ["+400%"] = "N/A" ∧
    containsStr "+" "+400%" = true ∧ lineHasDigit "+400%" = true ∧
    containsStr "400%" "+400%" = true ∧
    ("+400%" : String) ≠ "800%" ∧ ("+400%" : String) ≠ "700%" ∧
    ("+400%" : String) ≠ "900%" := by
  decide

/-- C3 (amended): the status is `Lasted` exactly when the row text contains
the substring `"Lasted"` and does not contain `"Active"` (the `"Active"`
check comes first, so `Active` wins when both substrings occur); it is
`Active` in every other case, in particular when neither substring occurs. -/
theorem extractStatus_amended (row : String) :
    (extractStatus row = TrendStatus.lasted ↔
      containsStr "Lasted" row = true ∧ containsStr "Active" row = false) ∧
    (extractStatus row = TrendStatus.active ↔
      (containsStr "Lasted" row = false ∨ containsStr "Active" row = true)) := by
  unfold extractStatus
  cases hA : containsStr "Active" row <;> cases hL : containsStr "Lasted" row <;> simp

/-- Counterexample for C3 as stated: a row text containing both `"Active"`
and `"Lasted"` gets status `Active`, although it contains the substring
`"Lasted"`. -/
theorem extractStatus_claim_counterexample :
    extractStatus "Active Lasted" = TrendStatus.active ∧
    containsStr "Lasted" "Active Lasted" = true := by
  decide

theorem retryGo_ok {ε α : Type} (f : Nat → Except ε α) (v : α) :
    ∀ (m attempt remaining : Nat), m ≤ remaining →
    (∀ j, j < m → ∃ e, f (attempt + j) = Except.error e) →
    f (attempt + m) = Except.ok v →
    retryGo f attempt remaining = Except.ok v ∧
      retryCountGo f attempt remaining = m + 1 := by
  intro m
  induction m with
  | zero =>
    intro attempt remaining _ _ hok
    rw [Nat.add_zero] at hok
    cases remaining with
    | zero => exact ⟨hok, rfl⟩
    | succ r => simp [retryGo, retryCountGo, hok]
  | succ m2 ih =>
    intro attempt remaining hle hfail hok
    obtain ⟨e, he⟩ := hfail 0 (Nat.succ_pos m2)
    rw [Nat.add_zero] at he
    cases remaining with
    | zero => omega
    | succ r =>
      have hrest := ih (attempt + 1) r (by omega)
        (fun j hj => by
          obtain ⟨e2, he2⟩ := hfail (j + 1) (by omega)
          exact ⟨e2, by rw [← he2]; ring_nf⟩)
        (by rw [← hok]; ring_nf)
      simp [retryGo, retryCountGo, he, hrest.1, hrest.2]
      omega

theorem retryGo_allFail {ε α : Type} (f : Nat → Except ε α) (e : Nat → ε) :
    ∀ (remaining attempt : Nat),
    (∀ j, j ≤ remaining → f (attempt + j) = Except.error (e (attempt + j))) →
    retryGo f attempt remaining = Except.error (e (attempt + remaining)) ∧
      retryCountGo f attempt remaining = remaining + 1 := by
  intro remaining
  induction remaining with
  | zero =>
    intro attempt hfail
    have h0 := hfail 0 (Nat.le_refl 0)
    rw [Nat.add_zero] at h0
    exact ⟨h0, rfl⟩
  | succ r ih =>
    intro attempt hfail
    have h0 := hfail 0 (Nat.zero_le _)
    rw [Nat.add_zero] at h0
    have hrest := ih (attempt + 1)
      (fun j hj => by rw [show attempt + 1 + j = attempt + (j + 1) by ring]
                      exact hfail (j + 1) (by omega))
    constructor
    · simp only [retryGo, h0, hrest.1]
      rw [show attempt + 1 + r = attempt + (r + 1) by ring]
    · simp only [retryCountGo, h0, hrest.2]
      omega

/-- C6: for every `max_retries ≥ 0`, `retry_with_backoff` invokes the
callable until its first success, making at most `max_retries + 1`
invocations: a callable whose first success is its `k`-th invocation
(`1 ≤ k ≤ max_retries + 1`) is invoked exactly `k` times and its success
value is returned; a callable failing on all `max_retries + 1` invocations
causes the last exception to be re-raised. -/
theorem retry_with_backoff_spec {ε α : Type} (f : Nat → Except ε α)
    (max_retries : Nat) :
    (∀ (k : Nat) (v : α), 1 ≤ k → k ≤ max_retries + 1 →
      (∀ j, j < k - 1 → ∃ e, f j = Except.error e) →
      f (k - 1) = Except.ok v →
      retry_with_backoff f max_retries = Except.ok v ∧
        retryInvocations f max_retries = k) ∧
    (∀ e : Nat → ε,
      (∀ j, j ≤ max_retries → f j = Except.error (e j)) →
      retry_with_backoff f max_retries = Except.error (e max_retries) ∧
        retryInvocations f max_retries = max_retries + 1) := by
  constructor
  · intro k v hk1 hk2 hfail hok
    have h := retryGo_ok f v (k - 1) 0 max_retries (by omega)
      (fun j hj => by simpa using hfail j hj) (by simpa using hok)
    refine ⟨h.1, ?_⟩
    rw [retryInvocations, h.2]
    omega
  · intro e hfail
    have h := retryGo_allFail f e max_retries 0
      (fun j hj => by simpa using hfail j hj)
    exact ⟨by simpa using h.1, h.2⟩

/-- Witness for C6: a callable that fails twice then succeeds, with
`max_retries = 3`, is invoked exactly 3 times and returns the success
value; a callable that always fails, with `max_retries = 1`, is invoked
exactly 2 times and the last error is re-raised. -/
theorem retry_with_backoff_spec_witness :
    (retry_with_backoff (fun j => if j < 2 then Except.error j else Except.ok 7) 3 =
        Except.ok 7 ∧
      retryInvocations (fun j => if j < 2 then Except.error j else Except.ok 7) 3 = 3) ∧
    (retry_with_backoff (fun j => (Except.error j : Except Nat Nat)) 1 =
        Except.error 1 ∧
      retryInvocations (fun j => (Except.error j : Except Nat Nat)) 1 = 2) :=
  ⟨(retry_with_backoff_spec (fun j => if j < 2 then Except.error j else Except.ok 7) 3).1
      3 7 (by decide) (by decide)
      (fun j hj => ⟨j, by interval_cases j <;> rfl⟩) rfl,
   (retry_with_backoff_spec (fun j => (Except.error j : Except Nat Nat)) 1).2
      (fun j => j) (fun j hj => rfl)⟩

/-- C8: the body runs with `export_mode` forced to `scrape`, and whatever
the body does to the params and whether it returns normally or raises, the
`export_mode` seen after the fallback equals its value before. -/
theorem fallbackToDomScraping_restores {ε α : Type}
    (body : ScraperParams → ScraperParams × Except ε α)
    (params : ScraperParams) :
    fallbackToDomScraping body params =
      ({ (body { params with export_mode := ExportMode.scrape }).1 with
          export_mode := params.export_mode },
        (body { params with export_mode := ExportMode.scrape }).2) ∧
    (fallbackToDomScraping body params).1.export_mode = params.export_mode :=
  ⟨rfl, rfl⟩

theorem mem_mapCsvRows (rowFails : CsvRow → Bool) (params : CsvParams) :
    ∀ (rows : List CsvRow) (t : TrendItem),
      t ∈ mapCsvRows rowFails params rows → ∃ r, t = mapCsvRow params r := by
  intro rows
  induction rows with
  | nil => intro t ht; exact absurd ht (List.not_mem_nil t)
  | cons r rs ih =>
    intro t ht
    cases hf : rowFails r with
    | true =>
      rw [mapCsvRows, if_pos hf] at ht
      exact ih t ht
    | false =>
      rw [mapCsvRows, if_neg (by simp [hf])] at ht
      rcases List.mem_cons.mp ht with h | h
      · exact ⟨r, h⟩
      · exact ih t h

/-- C5: `map_csv_to_trends` is total (never raises); a total CSV-read
failure yields the empty list, failing rows are skipped, and every item it
produces has `source = "export_csv"`, `page_index = 1`, absent
`started_iso`, `more_related_count = 0`, and absent `sparkline_svg_path`. -/
theorem map_csv_to_trends_spec (csv : Except Unit (List CsvRow))
    (rowFails : CsvRow → Bool) (params : CsvParams) :
    map_csv_to_trends (Except.error ()) rowFails params = [] ∧
    (∀ t, t ∈ map_csv_to_trends csv rowFails params →
      t.source = "export_csv" ∧ t.page_index = 1 ∧ t.started_iso = none ∧
      t.more_related_count = 0 ∧ t.sparkline_svg_path = none) := by
  constructor
  · rfl
  · intro t ht
    match csv with
    | Except.error _ => exact absurd ht (List.not_mem_nil t)
    | Except.ok rows =>
      obtain ⟨r, rfl⟩ := mem_mapCsvRows rowFails params rows t ht
      exact ⟨rfl, rfl, rfl, rfl, rfl⟩

/-- Witness for C5: a one-row CSV with title `"Test Topic"`. -/
theorem map_csv_to_trends_spec_witness :
    (mapCsvRow {} csvSampleRow).source = "export_csv" ∧
    (mapCsvRow {} csvSampleRow).page_index = 1 ∧
    (mapCsvRow {} csvSampleRow).started_iso = none ∧
    (mapCsvRow {} csvSampleRow).more_related_count = 0 ∧
    (mapCsvRow {} csvSampleRow).sparkline_svg_path = none :=
  (map_csv_to_trends_spec (Except.ok [csvSampleRow]) (fun _ => false) {}).2 _
    (by simp [map_csv_to_trends, mapCsvRows])

theorem ensureCount_length (translations texts : List String) :
    (ensureCount translations texts).length = texts.length := by
  unfold ensureCount
  split
  · assumption
  · simp only [List.length_take, List.length_append, List.length_drop]
    omega

theorem translateTopicsBatch_length (oracle : List String → String)
    (texts : List String) :
    (translateTopicsBatch oracle texts).length = texts.length :=
  ensureCount_length _ _

theorem drop_append_length {α : Type} (a b : List α) (n : Nat) :
    (a ++ b).drop (a.length + n) = b.drop n := by
  induction a with
  | nil => simp
  | cons x xs ih => simp [Nat.succ_add, ih]

theorem applyTitles_get (trends : List TrendItem) :
    ∀ (titles : List String) (i : Nat) (t : TrendItem),
      titles.length = trends.length → trends[i]? = some t →
      ∃ s, (applyTitles trends titles)[i]? =
        some { t with title_translated := some s } := by
  induction trends with
  | nil => intro titles i t _ h; simp at h
  | cons t0 rest ih =>
    intro titles i t hlen h
    cases titles with
    | nil => simp at hlen
    | cons s ss =>
      cases i with
      | zero =>
        rw [List.getElem?_cons_zero, Option.some_inj] at h
        subst h
        exact ⟨s, by simp [applyTitles]⟩
      | succ i2 =>
        rw [List.getElem?_cons_succ] at h
        obtain ⟨s2, hs2⟩ := ih ss i2 t (by simpa using hlen) h
        exact ⟨s2, by simpa [applyTitles] using hs2⟩

theorem applyTitles_relatedOffset (trends : List TrendItem) :
    ∀ (titles : List String) (i : Nat), titles.length = trends.length →
      relatedOffset (applyTitles trends titles) i = relatedOffset trends i := by
  induction trends with
  | nil => intro titles i _; cases titles <;> cases i <;> rfl
  | cons t0 rest ih =>
    intro titles i hlen
    cases titles with
    | nil => simp at hlen
    | cons s ss =>
      cases i with
      | zero => rfl
      | succ i2 =>
        simp only [applyTitles, relatedOffset]
        rw [ih ss i2 (by simpa using hlen)]

theorem applyRelated_get (batch : List String) :
    ∀ (ts : List TrendItem) (idx i : Nat) (t : TrendItem), ts[i]? = some t →
      (applyRelated batch ts idx)[i]? = some (
        if t.top_related.isEmpty then t
        else { t with
            related_translated := some ((batch.drop (idx + relatedOffset ts i)).take
              t.top_related.length) }) := by
  intro ts
  induction ts with
  | nil => intro idx i t h; simp at h
  | cons t0 rest ih =>
    intro idx i t h
    cases i with
    | zero =>
      rw [List.getElem?_cons_zero, Option.some_inj] at h
      subst h
      cases he : t0.top_related.isEmpty with
      | true => simp [applyRelated, he, relatedOffset]
      | false => simp [applyRelated, he, relatedOffset]
    | succ i2 =>
      rw [List.getElem?_cons_succ] at h
      cases he : t0.top_related.isEmpty with
      | true =>
        have h0 : t0.top_related.length = 0 := by
          rw [List.isEmpty_iff] at he
          simp [he]
        simp only [applyRelated, he, if_true, List.getElem?_cons_succ]
        rw [ih idx i2 t h]
        simp [relatedOffset, h0]
      | false =>
        simp only [applyRelated, he, Bool.false_eq_true, if_false,
          List.getElem?_cons_succ]
        rw [ih (idx + t0.top_related.length) i2 t h]
        simp [relatedOffset, Nat.add_assoc]

theorem allRelated_drop :
    ∀ (ts : List TrendItem) (i : Nat) (t : TrendItem), ts[i]? = some t →
      (allRelated ts).drop (relatedOffset ts i) =
        t.top_related ++ allRelated (ts.drop (i + 1)) := by
  intro ts
  induction ts with
  | nil => intro i t h; simp at h
  | cons t0 rest ih =>
    intro i t h
    cases i with
    | zero =>
      rw [List.getElem?_cons_zero, Option.some_inj] at h
      subst h
      simp [allRelated, relatedOffset]
    | succ i2 =>
      rw [List.getElem?_cons_succ] at h
      simp only [allRelated, relatedOffset, List.drop_succ_cons]
      rw [drop_append_length, ih i2 t h]

/-- C7: after `_translate_trends_with_context`, every item whose
`top_related` is non-empty carries `related_translated` equal to the
contiguous slice of the flattened related-query batch starting at the sum
of the earlier items' related counts, of the same length as its own
`top_related`; that position range holds exactly its own queries (same
order); an item with empty `top_related` keeps its `related_translated`
unchanged (absent when it was absent). -/
theorem translateTrendsWithContext_spec
    (titleOracle relatedOracle : List String → String)
    (trends : List TrendItem) (i : Nat) (t : TrendItem)
    (hi : trends[i]? = some t) :
    (t.top_related = [] →
      ∃ u, (translateTrendsWithContext titleOracle relatedOracle trends)[i]? =
          some u ∧
        u.related_translated = t.related_translated) ∧
    (t.top_related ≠ [] →
      ∃ u, (translateTrendsWithContext titleOracle relatedOracle trends)[i]? =
          some u ∧
        u.related_translated = some
          (((translateTopicsBatch relatedOracle (allRelated trends)).drop
              (relatedOffset trends i)).take t.top_related.length) ∧
        (((translateTopicsBatch relatedOracle (allRelated trends)).drop
            (relatedOffset trends i)).take t.top_related.length).length =
          t.top_related.length ∧
        ((allRelated trends).drop (relatedOffset trends i)).take
            t.top_related.length = t.top_related) := by
  have htlen :
      (translateTopicsBatch titleOracle (trends.map (fun t => t.title))).length =
        trends.length := by
    rw [translateTopicsBatch_length, List.length_map]
  obtain ⟨s, hs⟩ :=
    applyTitles_get trends
      (translateTopicsBatch titleOracle (trends.map (fun t => t.title))) i t htlen hi
  have hu0top :
      ({ t with title_translated := some s } : TrendItem).top_related =
        t.top_related := rfl
  have hdropEq := allRelated_drop trends i t hi
  cases hAR : (allRelated trends).isEmpty with
  | true =>
    have hARnil : allRelated trends = [] := List.isEmpty_iff.mp hAR
    have htnil : t.top_related = [] := by
      rw [hARnil] at hdropEq
      simp only [List.drop_nil] at hdropEq
      exact (List.append_eq_nil.mp hdropEq.symm).1
    constructor
    · intro _
      refine ⟨{ t with title_translated := some s }, ?_, rfl⟩
      simp only [translateTrendsWithContext, hAR, if_true, List.isEmpty_nil]
      exact hs
    · intro hne
      exact absurd htnil hne
  | false =>
    have hARne : allRelated trends ≠ [] := by
      intro h0
      rw [h0] at hAR
      exact Bool.noConfusion hAR
    have hbatchlen :
        (translateTopicsBatch relatedOracle (allRelated trends)).length =
          (allRelated trends).length := translateTopicsBatch_length _ _
    have hbne :
        (translateTopicsBatch relatedOracle (allRelated trends)).isEmpty = false := by
      cases hb : (translateTopicsBatch relatedOracle (allRelated trends)).isEmpty with
      | false => rfl
      | true =>
        exfalso
        rw [List.isEmpty_iff] at hb
        have hlb := congrArg List.length hb
        rw [hbatchlen] at hlb
        exact hARne (List.length_eq_zero.mp hlb)
    have hresult :
        translateTrendsWithContext titleOracle relatedOracle trends =
          applyRelated (translateTopicsBatch relatedOracle (allRelated trends))
            (applyTitles trends
              (translateTopicsBatch titleOracle (trends.map (fun t => t.title)))) 0 := by
      simp only [translateTrendsWithContext, hAR, Bool.false_eq_true, if_false, hbne]
    have happly :=
      applyRelated_get (translateTopicsBatch relatedOracle (allRelated trends))
        _ 0 i _ hs
    rw [applyTitles_relatedOffset trends _ i htlen, Nat.zero_add, hu0top] at happly
    constructor
    · intro hemp
      refine ⟨{ t with title_translated := some s }, ?_, rfl⟩
      rw [hresult, happly, hemp]
      simp
    · intro hne
      have hempty : t.top_related.isEmpty = false := by
        cases hb : t.top_related.isEmpty with
        | false => rfl
        | true => exact absurd (List.isEmpty_iff.mp hb) hne
      have hlen2 :
          (allRelated trends).length - relatedOffset trends i =
            t.top_related.length + (allRelated (trends.drop (i + 1))).length := by
        rw [← List.length_append, ← hdropEq, List.length_drop]
      have hpos : 0 < t.top_related.length := List.length_pos.mpr hne
      refine ⟨{ t with
          title_translated := some s,
          related_translated := some
            (((translateTopicsBatch relatedOracle (allRelated trends)).drop
                (relatedOffset trends i)).take t.top_related.length) }, ?_, rfl, ?_, ?_⟩
      · rw [hresult, happly, hempty]
        simp
      · simp only [List.length_take, List.length_drop, hbatchlen]
        omega
      · rw [hdropEq]
        exact List.take_left' rfl

theorem buildBatchState_length (cache : String → Option String) :
    ∀ (ts : List String) (i : Nat),
      (buildBatchState cache ts i).1.length = ts.length := by
  intro ts
  induction ts with
  | nil => intro i; rfl
  | cons t0 ts2 ih =>
    intro i
    simp only [buildBatchState]
    cases hb : isBlank t0 with
    | true => simp [ih (i + 1)]
    | false => cases hc : cache t0 <;> simp [hc, ih (i + 1)]

theorem buildBatchState_blank (cache : String → Option String) :
    ∀ (ts : List String) (i k : Nat) (t : String),
      ts[k]? = some t → isBlank t = true →
      (buildBatchState cache ts i).1[k]? = some (some t) := by
  intro ts
  induction ts with
  | nil => intro i k t h _; simp at h
  | cons t0 ts2 ih =>
    intro i k t h hbt
    cases k with
    | zero =>
      rw [List.getElem?_cons_zero, Option.some_inj] at h
      subst h
      simp only [buildBatchState]
      simp [hbt]
    | succ k2 =>
      rw [List.getElem?_cons_succ] at h
      simp only [buildBatchState]
      cases hb : isBlank t0 with
      | true => simpa using ih (i + 1) k2 t h hbt
      | false =>
        cases hc : cache t0 <;> simp [hc] <;> exact ih (i + 1) k2 t h hbt

theorem buildBatchState_idx_spec (cache : String → Option String) :
    ∀ (ts : List String) (i j : Nat), j ∈ (buildBatchState cache ts i).2.2 →
      i ≤ j ∧ ∀ (k : Nat) (t : String), ts[k]? = some t → isBlank t = true →
        j ≠ i + k := by
  intro ts
  induction ts with
  | nil => intro i j h; simp [buildBatchState] at h
  | cons t0 ts2 ih =>
    intro i j h
    simp only [buildBatchState] at h
    cases hb : isBlank t0 with
    | true =>
      rw [hb] at h
      simp only [if_true] at h
      obtain ⟨hle, hne⟩ := ih (i + 1) j h
      refine ⟨by omega, ?_⟩
      intro k t hk hbt
      cases k with
      | zero => omega
      | succ k2 =>
        rw [List.getElem?_cons_succ] at hk
        have := hne k2 t hk hbt
        omega
    | false =>
      rw [hb] at h
      simp only [Bool.false_eq_true, if_false] at h
      cases hc : cache t0 with
      | some c =>
        rw [hc] at h
        obtain ⟨hle, hne⟩ := ih (i + 1) j h
        refine ⟨by omega, ?_⟩
        intro k t hk hbt
        cases k with
        | zero => omega
        | succ k2 =>
          rw [List.getElem?_cons_succ] at hk
          have := hne k2 t hk hbt
          omega
      | none =>
        rw [hc] at h
        simp only [List.mem_cons] at h
        rcases h with rfl | h
        · refine ⟨Nat.le_refl j, ?_⟩
          intro k t hk hbt
          cases k with
          | zero =>
            rw [List.getElem?_cons_zero, Option.some_inj] at hk
            subst hk
            rw [hbt] at hb
            exact Bool.noConfusion hb
          | succ k2 => omega
        · obtain ⟨hle, hne⟩ := ih (i + 1) j h
          refine ⟨by omega, ?_⟩
          intro k t hk hbt
          cases k with
          | zero => omega
          | succ k2 =>
            rw [List.getElem?_cons_succ] at hk
            have := hne k2 t hk hbt
            omega

theorem fillTranslations_length :
    ∀ (pairs : List (Nat × String)) (tr : List (Option String)),
      (fillTranslations tr pairs).length = tr.length := by
  intro pairs
  induction pairs with
  | nil => intro tr; rfl
  | cons p ps ih =>
    intro tr
    show (fillTranslations (tr.set p.1 (some p.2)) ps).length = tr.length
    rw [ih, List.length_set]

theorem fillTranslations_getElem_ne :
    ∀ (pairs : List (Nat × String)) (tr : List (Option String)) (k : Nat),
      (∀ p ∈ pairs, p.1 ≠ k) →
      (fillTranslations tr pairs)[k]? = tr[k]? := by
  intro pairs
  induction pairs with
  | nil => intro tr k _; rfl
  | cons p ps ih =>
    intro tr k hne
    show (fillTranslations (tr.set p.1 (some p.2)) ps)[k]? = tr[k]?
    rw [ih _ k (fun q hq => hne q (by simp [hq])),
        List.getElem?_set_ne (hne p (by simp))]

theorem fillFallback_length (texts : List String) :
    ∀ (idxs : List Nat) (tr : List (Option String)),
      (fillFallback texts tr idxs).length = tr.length := by
  intro idxs
  induction idxs with
  | nil => intro tr; rfl
  | cons j js ih =>
    intro tr
    show (fillFallback texts (tr.set j (some (texts.getD j ""))) js).length = tr.length
    rw [ih, List.length_set]

theorem fillFallback_getElem_ne (texts : List String) :
    ∀ (idxs : List Nat) (tr : List (Option String)) (k : Nat),
      (∀ j ∈ idxs, j ≠ k) →
      (fillFallback texts tr idxs)[k]? = tr[k]? := by
  intro idxs
  induction idxs with
  | nil => intro tr k _; rfl
  | cons j js ih =>
    intro tr k hne
    show (fillFallback texts (tr.set j (some (texts.getD j ""))) js)[k]? = tr[k]?
    rw [ih _ k (fun q hq => hne q (by simp [hq])),
        List.getElem?_set_ne (hne j (by simp))]

theorem runBatchFill_spec (cache : String → Option String) (texts : List String)
    (res : Except Unit (List String)) :
    (runBatchFill cache texts res).length = texts.length ∧
    (∀ (k : Nat) (t : String), texts[k]? = some t → isBlank t = true →
      (runBatchFill cache texts res)[k]? = some (some t)) := by
  unfold runBatchFill
  cases hemp : texts.isEmpty with
  | true =>
    have : texts = [] := List.isEmpty_iff.mp hemp
    subst this
    exact ⟨rfl, fun k t h _ => by simp at h⟩
  | false =>
    simp only [Bool.false_eq_true, if_false]
    cases htt : (buildBatchState cache texts 0).2.1.isEmpty with
    | true =>
      simp only [if_true]
      exact ⟨buildBatchState_length cache texts 0,
        fun k t h hb => buildBatchState_blank cache texts 0 k t h hb⟩
    | false =>
      simp only [Bool.false_eq_true, if_false]
      cases res with
      | ok batch =>
        refine ⟨?_, ?_⟩
        · rw [fillTranslations_length, buildBatchState_length]
        · intro k t h hb
          rw [fillTranslations_getElem_ne _ _ k ?_,
            buildBatchState_blank cache texts 0 k t h hb]
          intro p hp
          have hmem := (List.of_mem_zip hp).1
          have := (buildBatchState_idx_spec cache texts 0 p.1 hmem).2 k t h hb
          simpa using this
      | error e =>
        refine ⟨?_, ?_⟩
        · rw [fillFallback_length, buildBatchState_length]
        · intro k t h hb
          rw [fillFallback_getElem_ne _ _ _ k ?_,
            buildBatchState_blank cache texts 0 k t h hb]
          intro j hj
          have := (buildBatchState_idx_spec cache texts 0 j hj).2 k t h hb
          simpa using this

/-- C9: for every input list and cache/oracle behaviour, `translate_batch`
of the free backend and of the chat-completion backend both return exactly
one output entry per input text, and every blank (empty or whitespace-only)
input appears unchanged at its original position. -/
theorem translate_batch_spec (freeOracle : List String → Except Unit (List String))
    (gptOracle : List String → Except Unit String)
    (cache : String → Option String) (texts : List String) :
    ((free_translate_batch freeOracle cache texts).length = texts.length ∧
      ∀ (k : Nat) (t : String), texts[k]? = some t → isBlank t = true →
        (free_translate_batch freeOracle cache texts)[k]? = some (some t)) ∧
    ((gpt_translate_batch gptOracle cache texts).length = texts.length ∧
      ∀ (k : Nat) (t : String), texts[k]? = some t → isBlank t = true →
        (gpt_translate_batch gptOracle cache texts)[k]? = some (some t)) :=
  ⟨runBatchFill_spec cache texts _, runBatchFill_spec cache texts _⟩

/-- Witness for C7: two items, the first with related queries `[q1, q2]`,
the second with none. -/
theorem translateTrendsWithContext_spec_witness :
    (∃ u, (translateTrendsWithContext demoOracle demoOracle
          [demoTrendA, demoTrendB])[0]? = some u ∧
      u.related_translated = some
        (((translateTopicsBatch demoOracle (allRelated [demoTrendA, demoTrendB])).drop
            (relatedOffset [demoTrendA, demoTrendB] 0)).take
          demoTrendA.top_related.length) ∧
      (((translateTopicsBatch demoOracle (allRelated [demoTrendA, demoTrendB])).drop
          (relatedOffset [demoTrendA, demoTrendB] 0)).take
        demoTrendA.top_related.length).length = demoTrendA.top_related.length ∧
      ((allRelated [demoTrendA, demoTrendB]).drop
          (relatedOffset [demoTrendA, demoTrendB] 0)).take
        demoTrendA.top_related.length = demoTrendA.top_related) ∧
    (∃ u, (translateTrendsWithContext demoOracle demoOracle
          [demoTrendA, demoTrendB])[1]? = some u ∧
      u.related_translated = demoTrendB.related_translated) :=
  ⟨(translateTrendsWithContext_spec demoOracle demoOracle [demoTrendA, demoTrendB]
      0 demoTrendA rfl).2 (by decide),
   (translateTrendsWithContext_spec demoOracle demoOracle [demoTrendA, demoTrendB]
      1 demoTrendB rfl).1 rfl⟩

/-- Witness for C9: the two blank inputs of `demoTexts` survive unchanged
at positions 0 and 2, and both backends return one entry per input. -/
theorem translate_batch_spec_witness :
    (free_translate_batch demoFreeOracle demoCache demoTexts).length = 3 ∧
    (free_translate_batch demoFreeOracle demoCache demoTexts)[0]? =
      some (some "") ∧
    (free_translate_batch demoFreeOracle demoCache demoTexts)[2]? =
      some (some "  ") ∧
    (gpt_translate_batch demoGptOracle demoCache demoTexts).length = 3 ∧
    (gpt_translate_batch demoGptOracle demoCache demoTexts)[2]? =
      some (some "  ") :=
  ⟨(translate_batch_spec demoFreeOracle demoGptOracle demoCache demoTexts).1.1,
   (translate_batch_spec demoFreeOracle demoGptOracle demoCache demoTexts).1.2
      0 "" rfl rfl,
   (translate_batch_spec demoFreeOracle demoGptOracle demoCache demoTexts).1.2
      2 "  " rfl (by decide),
   (translate_batch_spec demoFreeOracle demoGptOracle demoCache demoTexts).2.1,
   (translate_batch_spec demoFreeOracle demoGptOracle demoCache demoTexts).2.2
      2 "  " rfl (by decide)⟩

end GTrends
